import Mathlib

/-!
Verification of the `bevy_debugger_mcp` protocol client and pipeline
orchestrator against its natural-language specification.

The definitions below are a shallow embedding of the Rust sources:

* `src/src/error.rs`        → `Error`
* `src/src/brp_messages.rs` → `BrpRequest`, `BrpResponse`, `BrpResult`
* `src/src/config.rs`       → `ResilienceConfig`, `Config`
* `src/src/brp_client.rs`   → `ClientState`, `connectWithRetry`, `disconnect`,
                              `stopBatchProcessing`, `sendRequestInternal`,
                              `sendBatchedRequestEnqueue`, `batchTick`
* `src/src/brp_client_refactored.rs` → `RState`, `disconnectInternal`,
                              `refactoredConnect`, `refactoredSendRequest`
* `src/src/mcp_server.rs`   → `validatePipeline`, `handleCustomPipeline`
* `DependencyGraph.get_execution_order` lives in the repository's
  `tool_orchestration` module, which is not part of the source snapshot
  (only its tests and callers are); it is modelled from the spec, see
  `getExecutionOrder` below.

Durations are embedded as natural numbers (seconds or milliseconds as
noted); JSON payloads are embedded as opaque strings, since no verified
code inspects them.
-/

/-- Mirror of the `Error` enum in `src/src/error.rs`.  Payloads that are
structured in Rust (`tungstenite::Error`, `io::Error`, `serde_json::Error`,
`uuid::Error`) carry only their rendered message here; the `WithContext`
variant keeps its recursive source. -/
inductive Error where
  | config (msg : String)
  | webSocket (msg : String)
  | ioError (msg : String)
  | json (msg : String)
  | connection (msg : String)
  | mcp (msg : String)
  | brp (msg : String)
  | validation (msg : String)
  | serialization (msg : String)
  | uuid (msg : String)
  | withContext (context : String) (hasSource : Bool)
  deriving Repr, DecidableEq

/-- Mirror of `BrpRequest` in `src/src/brp_messages.rs`.  `EntityId = u64`
becomes `Nat`; component maps and JSON values become opaque strings, since
the client code verified here never inspects them. -/
inductive BrpRequest where
  | query (filter : Option String) (limit : Option Nat)
  | get (entity : Nat) (components : Option (List String))
  | set (entity : Nat) (components : List (String × String))
  | spawn (components : List (String × String))
  | destroy (entity : Nat)
  | listComponents
  | listEntities (filter : Option String)
  | screenshot (path : Option String)
  | spawnEntity (components : List (String × String))
  | modifyEntity (entityId : Nat) (components : List (String × String))
  | deleteEntity (entityId : Nat)
  | queryEntity (entityId : Nat)
  deriving Repr, DecidableEq

/-- Mirror of `BrpResult` in `src/src/brp_messages.rs` (payloads reduced to
the data the verified code constructs). -/
inductive BrpResult where
  | entities (n : Nat)
  | entity (id : Nat)
  | entityId (id : Nat)
  | componentTypes (ts : List String)
  | success
  | entitySpawned (id : Nat)
  | entityModified
  | entityDeleted
  | screenshot (path : String) (ok : Bool)
  deriving Repr, DecidableEq

/-- Mirror of `BrpResponse` in `src/src/brp_messages.rs`. -/
inductive BrpResponse where
  | success (result : BrpResult)
  | error (code : String) (message : String)
  deriving Repr, DecidableEq

/-- Mirror of the mutable state of `BrpClient` in `src/src/brp_client.rs`:
`ws_stream.is_some()`, `connected`, `retry_count`, and
`batch_processor_handle.is_some()`.  The request queue is threaded
separately (it lives behind its own `Arc<RwLock<..>>` and is shared with
the batch-processor task). -/
structure ClientState where
  wsStream : Bool
  connected : Bool
  retryCount : Nat
  batchRunning : Bool
  deriving Repr, DecidableEq

/-- `MAX_RETRIES` in `connect_with_retry` (`src/src/brp_client.rs`). -/
def maxRetries : Nat := 5

/-- `BrpClient::connect` (`src/src/brp_client.rs` lines 82-96): on success
installs the fresh socket and sets `connected`; on failure the state is
untouched.  `succeeds` is the outcome of `connect_async`.  Note that this
function does not disconnect first and does not touch `retry_count` or the
batch task. -/
def connectPrimary (succeeds : Bool) (s : ClientState) :
    Except Error Unit × ClientState :=
  if succeeds then
    (.ok (), { s with wsStream := true, connected := true })
  else
    (.error (.webSocket "connect failed"), s)

/-- The `while self.retry_count < MAX_RETRIES` loop of `connect_with_retry`
(`src/src/brp_client.rs` lines 58-75), encoded with fuel
`maxRetries - retry_count` (the loop guard, rewritten as the number of
iterations left).  `ok k` is the outcome of the `k`-th `connect` call of
this invocation; the third component counts the `connect` calls performed. -/
def connectWithRetryLoop (ok : Nat → Bool) :
    Nat → ClientState → Nat → Except Error Unit × ClientState × Nat
  | 0, s, attempts => (.error (.connection "Failed to connect to BRP after 5 attempts"), s, attempts)
  | fuel + 1, s, attempts =>
    if ok attempts then
      (.ok (), { s with wsStream := true, connected := true, retryCount := 0 }, attempts + 1)
    else
      connectWithRetryLoop ok fuel { s with retryCount := s.retryCount + 1 } (attempts + 1)

/-- `BrpClient::connect_with_retry` (`src/src/brp_client.rs` lines 54-80). -/
def connectWithRetry (ok : Nat → Bool) (s : ClientState) :
    Except Error Unit × ClientState × Nat :=
  connectWithRetryLoop ok (maxRetries - s.retryCount) s 0

/-- `BrpClient::disconnect` (`src/src/brp_client.rs` lines 315-321): takes
and closes the socket if present, clears `connected`.  It does not touch
`batch_processor_handle`. -/
def disconnect (s : ClientState) : ClientState :=
  { s with wsStream := false, connected := false }

/-- `BrpClient::stop_batch_processing` (`src/src/brp_client.rs` lines
268-273): aborts the batch task if one is running. -/
def stopBatchProcessing (s : ClientState) : ClientState :=
  { s with batchRunning := false }

/-- The `resilience` slice of `src/src/config.rs` that matters here:
`ResilienceConfig.request_timeout` (a `Duration`, default 10 s). -/
structure ResilienceConfig where
  requestTimeoutSecs : Nat
  deriving Repr, DecidableEq

/-- Mirror of `Config` in `src/src/config.rs`. -/
structure Config where
  bevyBrpHost : String
  bevyBrpPort : Nat
  mcpPort : Nat
  resilience : ResilienceConfig
  deriving Repr, DecidableEq

/-- `Config::default()` / `ResilienceConfig::default()`:
`request_timeout: Duration::from_secs(10)`. -/
def defaultConfig : Config :=
  { bevyBrpHost := "localhost", bevyBrpPort := 15702, mcpPort := 3001,
    resilience := { requestTimeoutSecs := 10 } }

/-- The per-request time budget `send_request_internal` actually applies
(`src/src/brp_client.rs` line 154): the literal `Duration::from_secs(5)`.
The function has access to `self.config` but does not consult it. -/
def sendRequestTimeoutSecs (_cfg : Config) : Nat := 5

/-- What `tokio::time::timeout(.., self.receive_message())` produced for the
one inbound wait of `send_request_internal`:
the timeout elapsed; the stream yielded a `Close` frame; the stream ended
(or yielded a non-text frame), which `receive_message` reports as `None`;
a WebSocket error; or a text message. -/
inductive InboundEvent where
  | timedOut
  | closeFrame
  | ended
  | wsFailure (msg : String)
  | text (t : String)
  deriving Repr, DecidableEq

/-- `BrpClient::send_request_internal` (`src/src/brp_client.rs` lines
149-164), together with the `send_message`/`receive_message` calls it makes
(lines 275-313).  `parse` stands for `serde_json::from_str`; the `Nat`
component counts the WebSocket writes performed (the request is serialized
and written at most once; there is no retry in this function). -/
def sendRequestInternal (parse : String → Option BrpResponse)
    (ev : InboundEvent) (s : ClientState) :
    Except Error BrpResponse × ClientState × Nat :=
  if !s.wsStream then
    (.error (.connection "Not connected to BRP"), s, 0)
  else
    match ev with
    | .timedOut => (.error (.connection "Request timeout"), s, 1)
    | .closeFrame =>
      (.error (.connection "Connection closed during request"),
       { s with connected := false, wsStream := false }, 1)
    | .ended =>
      (.error (.connection "Connection closed during request"), s, 1)
    | .wsFailure msg =>
      (.error (.webSocket msg),
       { s with connected := false, wsStream := false }, 1)
    | .text t =>
      match parse t with
      | some resp => (.ok resp, s, 1)
      | none => (.error (.json "invalid response"), s, 1)

/-- The enqueue step of `BrpClient::send_batched_request`
(`src/src/brp_client.rs` lines 167-180): a `BatchedRequest` with its own
response channel is pushed at the back of the shared queue.  The caller
then blocks on `response_rx.recv()` with no timeout; the response it gets
is whatever the batch processor later sends on that channel. -/
def sendBatchedRequestEnqueue (queue : List BrpRequest) (r : BrpRequest) :
    List BrpRequest :=
  queue ++ [r]

/-- The per-request processing of an admitted batch
(`src/src/brp_client.rs` lines 236-258).  `shouldSample k` is the outcome
of the `k`-th `should_sample()` call of this tick. -/
def processBatch (rmPresent : Bool) (shouldSample : Nat → Bool) :
    List BrpRequest → Nat → List (BrpRequest × Except Error BrpResponse)
  | [], _ => []
  | r :: rs, i =>
    (r,
      if rmPresent then
        if shouldSample i then .ok (.success .success)
        else .error (.validation "Request skipped due to adaptive sampling")
      else .ok (.success .success)) :: processBatch rmPresent shouldSample rs (i + 1)

/-- One tick of the batch-processor task spawned by
`start_batch_processing` (`src/src/brp_client.rs` lines 198-259).
Returns the (request, response) deliveries made on the per-request
channels, the queue left for later ticks, and the list of messages
written to the WebSocket during the tick — always `[]`, because the
spawned task captures only the queue and the resource manager and holds
no socket handle. -/
def batchTick (rmPresent : Bool) (rateLimitOk : Bool) (shouldSample : Nat → Bool)
    (queue : List BrpRequest) :
    List (BrpRequest × Except Error BrpResponse) × List BrpRequest × List String :=
  let batchSize := min queue.length 10
  let requests := queue.take batchSize
  let rest := queue.drop batchSize
  if requests.isEmpty then
    ([], rest, [])
  else if rmPresent && !rateLimitOk then
    (requests.map (fun r => (r, .error (.validation "BRP rate limit exceeded"))), rest, [])
  else
    (processBatch rmPresent shouldSample requests 0, rest, [])

/-- Mutable state of the refactored client (`BrpClientState` in
`src/src/brp_client_refactored.rs`).  Sockets carry an identity so that
"the old socket does not survive a reconnect" is expressible. -/
structure RState where
  wsStream : Option Nat
  connected : Bool
  retryCount : Nat
  queueLen : Nat
  batchRunning : Bool
  deriving Repr, DecidableEq

/-- `BrpClient::disconnect_internal` (`src/src/brp_client_refactored.rs`
lines 188-208): no-op when not connected; otherwise aborts the batch task,
closes the socket and clears the flag.  The request queue is not cleared. -/
def disconnectInternal (s : RState) : RState :=
  if !s.connected then s
  else { s with batchRunning := false, wsStream := none, connected := false }

/-- The `for attempt in 0..=max_retries` loop of the refactored
`BrpClient::connect` (`src/src/brp_client_refactored.rs` lines 149-177),
encoded with fuel = number of loop iterations left
(`max_retries + 1 - attempt`).  `ok k` is the outcome of the `k`-th
`connect_async`; `newSock` is the identity of the socket a successful
attempt installs.  The fuel-0 base case is the `Err("Max retries
exceeded")` after the loop (line 179), which is unreachable from
`refactoredConnect`.  On success, `start_batch_processor` (lines 266-270)
is a stub that only logs, so `batchRunning` is not changed. -/
def refactoredConnectLoop (ok : Nat → Bool) (newSock : Nat) :
    Nat → Nat → RState → Except Error Unit × RState
  | 0, _, s => (.error (.connection "Max retries exceeded"), s)
  | fuel + 1, attempt, s =>
    if ok attempt then
      (.ok (), { s with wsStream := some newSock, connected := true, retryCount := 0 })
    else if fuel = 0 then
      (.error (.connection "Connection failed"), { s with retryCount := attempt + 1 })
    else
      refactoredConnectLoop ok newSock fuel (attempt + 1) { s with retryCount := attempt + 1 }

/-- The refactored `BrpClient::connect`
(`src/src/brp_client_refactored.rs` lines 134-180): disconnects first if
already connected, then runs the attempt loop. -/
def refactoredConnect (ok : Nat → Bool) (newSock : Nat) (maxR : Nat) (s : RState) :
    Except Error Unit × RState :=
  let s1 := if s.connected then disconnectInternal s else s
  refactoredConnectLoop ok newSock (maxR + 1) 0 s1

/-- The admission part of the refactored `BrpClient::send_request`
(`src/src/brp_client_refactored.rs` lines 211-236): a disconnected caller
is rejected immediately with a `Connection` error and nothing is enqueued;
a connected caller has its `BatchedRequest` pushed onto the queue (the
subsequent wait on the response channel is bounded by
`config.request_timeout_ms`). -/
def refactoredSendRequestAdmit (s : RState) : Except Error Unit × RState :=
  if !s.connected then
    (.error (.connection "Not connected to BRP server"), s)
  else
    (.ok (), { s with queueLen := s.queueLen + 1 })

/-- `PipelineStep` (fields as used by
`handle_pipeline_execution` in `src/src/mcp_server.rs` and laid out in the
spec; the struct itself lives in the absent `tool_orchestration` module).
`timeoutSecs` is `step.timeout` in seconds; `arguments` is an opaque JSON
payload. -/
structure PipelineStep where
  name : String
  tool : String
  arguments : String
  condition : Option String
  timeoutSecs : Option Nat
  deriving Repr, DecidableEq

/-- `ToolPipeline` (fields per the spec; only `steps` is inspected by the
validation in `src/src/mcp_server.rs`). -/
structure ToolPipeline where
  name : String
  description : String
  steps : List PipelineStep
  parallelExecution : Bool
  failFast : Bool
  deriving Repr, DecidableEq

/-- The known-tool allowlist of `handle_pipeline_execution`
(`src/src/mcp_server.rs` lines 267-274). -/
def knownTools : List String :=
  ["observe", "experiment", "hypothesis", "stress", "replay", "anomaly"]

/-- The per-step checks of the `for step in &pipeline.steps` loop in
`handle_pipeline_execution` (`src/src/mcp_server.rs` lines 258-282):
first the timeout bound (`step.timeout.unwrap_or(300 s) > 600 s`), then
the allowlist membership, first violation wins. -/
def validateSteps : List PipelineStep → Except Error Unit
  | [] => .ok ()
  | s :: rest =>
    if s.timeoutSecs.getD 300 > 600 then
      .error (.validation ("Step '" ++ s.name ++ "' timeout too long: maximum 10 minutes allowed"))
    else if !(knownTools.contains s.tool) then
      .error (.validation ("Unknown tool '" ++ s.tool ++ "' in step '" ++ s.name ++ "'"))
    else validateSteps rest

/-- The validation block of `handle_pipeline_execution`
(`src/src/mcp_server.rs` lines 252-282): step count first, then the
per-step loop. -/
def validatePipeline (p : ToolPipeline) : Except Error Unit :=
  if p.steps.length > 50 then
    .error (.validation "Pipeline too complex: maximum 50 steps allowed")
  else validateSteps p.steps

/-- The custom-pipeline branch of `handle_pipeline_execution`
(`src/src/mcp_server.rs` lines 246-289): validation runs to completion
before `orchestrator.execute_pipeline` is invoked, so a validation error
is returned with zero steps executed.  `exec` stands for
`execute_pipeline` (in the absent `tool_orchestration` module); it returns
its result together with the number of steps it executed. -/
def handleCustomPipeline (exec : ToolPipeline → Except Error Unit × Nat)
    (p : ToolPipeline) : Except Error Unit × Nat :=
  match validatePipeline p with
  | .error e => (.error e, 0)
  | .ok () => exec p

/-- The spec's error-kind vocabulary (§7): `ConnectionError`, `Timeout`,
`ProtocolError`, `ValidationError`, `UnknownTool`, `CircularDependency`,
`RateLimited`. -/
inductive SpecErrorKind where
  | connectionError
  | timeoutKind
  | protocolError
  | validationError
  | unknownTool
  | circularDependencyKind
  | rateLimited
  deriving Repr, DecidableEq

/-- Follows the spec's words (§7), classifying each constructor of the
code's `Error` enum into the spec's error-kind vocabulary: `Connection`
and the transport-level variants are `ConnectionError`, `Validation` is
`ValidationError`, the serialization variants are `ProtocolError`.  No
constructor of the code's `Error` maps to (or could carry) the spec's
`RateLimited` kind, because the enum in `src/src/error.rs` has no
rate-limit variant. -/
def specKindOf : Error → SpecErrorKind
  | .config _ => .validationError
  | .webSocket _ => .connectionError
  | .ioError _ => .connectionError
  | .json _ => .protocolError
  | .connection _ => .connectionError
  | .mcp _ => .protocolError
  | .brp _ => .protocolError
  | .validation _ => .validationError
  | .serialization _ => .protocolError
  | .uuid _ => .protocolError
  | .withContext _ _ => .protocolError

/-- Modelled from the spec: `DependencyGraph` of the repository's
`tool_orchestration` module, absent from the source snapshot (only its
tests in `src/tests/orchestration_integration_test.rs` and its callers
remain).  Per the spec: "directed graph over tool/step names; edges mean
depends on"; `add_dependency(dependent, dependency)` records a directed
edge. -/
structure DependencyGraph where
  edges : List (String × String)
  deriving Repr, DecidableEq

/-- Modelled from the spec: `DependencyGraph::new()`. -/
def DependencyGraph.new : DependencyGraph := { edges := [] }

/-- Modelled from the spec: `DependencyGraph::add_dependency(dependent,
dependency)` records a directed edge. -/
def DependencyGraph.addDependency (g : DependencyGraph) (dependent dependency : String) :
    DependencyGraph :=
  { g with edges := g.edges ++ [(dependent, dependency)] }

/-- Modelled from the spec: the `CircularDependency` error kind of the
orchestrator ("identifying the cycle"); it carries the names that could
not be scheduled. -/
inductive OrchestrationError where
  | circularDependency (stuck : List String)
  deriving Repr, DecidableEq

/-- The recorded dependencies of `n` that fall inside the requested
subset: the `d` with an edge `(n, d)` and `d ∈ subset`. -/
def depsWithin (g : DependencyGraph) (subset : List String) (n : String) : List String :=
  (g.edges.filter (fun e => e.1 == n && subset.contains e.2)).map (fun e => e.2)

/-- The first not-yet-scheduled name all of whose in-subset dependencies
are already scheduled (Kahn step; input order is the tie-break, matching
the spec's "input order is an acceptable default"). -/
def findReady (g : DependencyGraph) (subset done remaining : List String) : Option String :=
  remaining.find? (fun n => (depsWithin g subset n).all (fun d => done.contains d))

/-- Modelled from the spec: the scheduling loop of `get_execution_order`
(a topological sort).  The fuel starts at `subset.length` and bounds the
number of scheduling steps, so the function always terminates; it is never
exhausted before `remaining` is empty because every step removes one
element of `remaining`. -/
def topoAux (g : DependencyGraph) (subset : List String) :
    Nat → List String → List String → Except OrchestrationError (List String)
  | _, [], done => .ok done.reverse
  | 0, r :: rs, _ => .error (.circularDependency (r :: rs))
  | fuel + 1, r :: rs, done =>
    match findReady g subset done (r :: rs) with
    | none => .error (.circularDependency (r :: rs))
    | some n => topoAux g subset fuel ((r :: rs).erase n) (n :: done)

/-- Modelled from the spec: `DependencyGraph::get_execution_order(subset)`
— "returns a total order over the requested subset consistent with all
recorded edges touching that subset (a topological sort); if the subset
induces a cycle, returns a `CircularDependency` error … An empty subset
yields an empty order". -/
def DependencyGraph.getExecutionOrder (g : DependencyGraph) (subset : List String) :
    Except OrchestrationError (List String) :=
  topoAux g subset subset.length subset []

/-- An edge of the graph recorded among the requested subset:
`a` depends on `b`, both names requested. -/
def DepEdge (g : DependencyGraph) (subset : List String) (a b : String) : Prop :=
  (a, b) ∈ g.edges ∧ a ∈ subset ∧ b ∈ subset

/-- The edges recorded among the subset are acyclic: no name reaches
itself through a nonempty chain of in-subset dependencies. -/
def DepAcyclic (g : DependencyGraph) (subset : List String) : Prop :=
  ∀ n, ¬ Relation.TransGen (DepEdge g subset) n n

example : (DependencyGraph.new.addDependency "b" "a" |>.addDependency "c" "b").getExecutionOrder
    ["c", "a", "b"] = .ok ["a", "b", "c"] := rfl

example :
    ((DependencyGraph.new.addDependency "b" "a").addDependency "c" "b"
      |>.addDependency "a" "c").getExecutionOrder ["a", "b", "c"]
    = .error (.circularDependency ["a", "b", "c"]) := rfl

example : DependencyGraph.new.getExecutionOrder [] = .ok [] := rfl

theorem mem_depsWithin {g : DependencyGraph} {subset : List String} {n d : String} :
    d ∈ depsWithin g subset n ↔ ((n, d) ∈ g.edges ∧ d ∈ subset) := by
  simp only [depsWithin, List.mem_map, List.mem_filter, Bool.and_eq_true, beq_iff_eq]
  constructor
  · rintro ⟨⟨a, b⟩, ⟨hmem, rfl, hsub⟩, rfl⟩
    exact ⟨hmem, by simpa using hsub⟩
  · rintro ⟨hmem, hsub⟩
    exact ⟨(n, d), ⟨hmem, rfl, by simpa using hsub⟩, rfl⟩

theorem findReady_some {g : DependencyGraph} {subset done remaining : List String} {n : String}
    (h : findReady g subset done remaining = some n) :
    n ∈ remaining ∧ ∀ d ∈ depsWithin g subset n, d ∈ done := by
  refine ⟨List.mem_of_find?_eq_some h, ?_⟩
  have hp := List.find?_some h
  intro d hd
  have := List.all_eq_true.mp hp d hd
  simpa using this

theorem findReady_none {g : DependencyGraph} {subset done remaining : List String}
    (h : findReady g subset done remaining = none) :
    ∀ n ∈ remaining, ∃ d ∈ depsWithin g subset n, d ∉ done := by
  intro n hn
  have hp := List.find?_eq_none.mp h n hn
  by_contra hc
  push_neg at hc
  apply hp
  refine List.all_eq_true.mpr ?_
  intro d hd
  simpa using hc d hd

/-- In a finite nonempty set where every element has a successor inside
the set, the relation has a cycle. -/
theorem exists_cycle_of_succ {R : String → String → Prop} {S : List String}
    (hne : S ≠ []) (h : ∀ n ∈ S, ∃ d ∈ S, R n d) :
    ∃ n, Relation.TransGen R n n := by
  classical
  choose f hfS hfR using h
  set n0 := S.head hne with hn0
  have hn0S : n0 ∈ S := List.head_mem hne
  set g : String → String := fun n => if hn : n ∈ S then f n hn else n0 with hg
  set iter : Nat → String := fun k => g^[k] n0 with hiter
  have hiterS : ∀ k, iter k ∈ S := by
    intro k
    induction k with
    | zero => simpa [hiter] using hn0S
    | succ k ih =>
      have : iter (k + 1) = g (iter k) := by
        simp [hiter, Function.iterate_succ_apply']
      rw [this, hg]
      simp only [dif_pos ih]
      exact hfS _ ih
  have hstep : ∀ k, R (iter k) (iter (k + 1)) := by
    intro k
    have hmem := hiterS k
    have : iter (k + 1) = g (iter k) := by
      simp [hiter, Function.iterate_succ_apply']
    rw [this, hg]
    simp only [dif_pos hmem]
    exact hfR _ hmem
  have hchain : ∀ i j, i < j → Relation.TransGen R (iter i) (iter j) := by
    intro i j hij
    induction j, hij using Nat.le_induction with
    | base => exact Relation.TransGen.single (hstep i)
    | succ j hij ih => exact Relation.TransGen.tail ih (hstep j)
  have hmaps : ∀ k ∈ Finset.range (S.length + 1), iter k ∈ S.toFinset := by
    intro k _
    exact List.mem_toFinset.mpr (hiterS k)
  have hcard : S.toFinset.card < (Finset.range (S.length + 1)).card := by
    rw [Finset.card_range]
    exact Nat.lt_succ_of_le S.toFinset_card_le
  obtain ⟨i, _, j, _, hij, heq⟩ :=
    Finset.exists_ne_map_eq_of_card_lt_of_maps_to hcard hmaps
  rcases Nat.lt_or_ge i j with hlt | hge
  · exact ⟨iter i, heq ▸ hchain i j hlt⟩
  · have hlt : j < i := Nat.lt_of_le_of_ne hge (fun e => hij e.symm)
    exact ⟨iter j, heq ▸ hchain j i hlt⟩

theorem indexOf_lt_of_mem_take {l : List String} :
    ∀ {k : Nat} {b : String}, b ∈ l.take k → List.indexOf b l < k := by
  induction l with
  | nil => intro k b hb; simp at hb
  | cons x xs ih =>
    intro k b hb
    match k with
    | 0 => simp at hb
    | k + 1 =>
      rw [List.take_succ_cons] at hb
      rcases List.mem_cons.mp hb with rfl | hb
      · simp [List.indexOf_cons_self]
      · by_cases hxb : b = x
        · subst hxb; simp [List.indexOf_cons_self]
        · rw [List.indexOf_cons_ne _ (fun h => hxb h.symm)]
          exact Nat.succ_lt_succ (ih hb)

theorem topoAux_perm {g : DependencyGraph} {subset : List String} :
    ∀ (fuel : Nat) (remaining done order : List String),
      topoAux g subset fuel remaining done = .ok order →
      order.Perm (done.reverse ++ remaining) := by
  intro fuel
  induction fuel with
  | zero =>
    intro remaining done order h
    cases remaining with
    | nil =>
      simp only [topoAux, Except.ok.injEq] at h
      subst h; simp
    | cons r rs => simp [topoAux] at h
  | succ fuel ih =>
    intro remaining done order h
    cases remaining with
    | nil =>
      simp only [topoAux, Except.ok.injEq] at h
      subst h; simp
    | cons r rs =>
      rw [topoAux] at h
      cases hfr : findReady g subset done (r :: rs) with
      | none => rw [hfr] at h; simp at h
      | some n =>
        simp only [hfr] at h
        have hmem := (findReady_some hfr).1
        have hperm := ih _ _ _ h
        have h1 : (n :: done).reverse ++ (r :: rs).erase n
            = done.reverse ++ (n :: (r :: rs).erase n) := by
          simp
        rw [h1] at hperm
        exact hperm.trans (List.Perm.append_left _ (List.perm_cons_erase hmem).symm)

theorem topoAux_respects {g : DependencyGraph} {subset : List String} :
    ∀ (fuel : Nat) (remaining done order : List String),
      topoAux g subset fuel remaining done = .ok order →
      (∀ pre x post, done = pre ++ x :: post → ∀ d ∈ depsWithin g subset x, d ∈ post) →
      ∀ pre x post, order = pre ++ x :: post → ∀ d ∈ depsWithin g subset x, d ∈ pre := by
  intro fuel
  induction fuel with
  | zero =>
    intro remaining done order h hdone
    cases remaining with
    | nil =>
      simp only [topoAux, Except.ok.injEq] at h
      intro pre x post horder d hd
      have hdone2 : done = post.reverse ++ x :: pre.reverse := by
        have h2 : done = (pre ++ x :: post).reverse := by
          rw [← horder, ← h, List.reverse_reverse]
        simpa using h2
      have := hdone _ _ _ hdone2 d hd
      exact List.mem_reverse.mp this
    | cons r rs => simp [topoAux] at h
  | succ fuel ih =>
    intro remaining done order h hdone
    cases remaining with
    | nil =>
      simp only [topoAux, Except.ok.injEq] at h
      intro pre x post horder d hd
      have hdone2 : done = post.reverse ++ x :: pre.reverse := by
        have h2 : done = (pre ++ x :: post).reverse := by
          rw [← horder, ← h, List.reverse_reverse]
        simpa using h2
      have := hdone _ _ _ hdone2 d hd
      exact List.mem_reverse.mp this
    | cons r rs =>
      rw [topoAux] at h
      cases hfr : findReady g subset done (r :: rs) with
      | none => rw [hfr] at h; simp at h
      | some n =>
        rw [hfr] at h
        refine ih _ _ _ h ?_
        intro pre x post hsplit d hd
        cases pre with
        | nil =>
          simp only [List.nil_append, List.cons.injEq] at hsplit
          obtain ⟨rfl, rfl⟩ := hsplit
          exact (findReady_some hfr).2 d hd
        | cons p ps =>
          simp only [List.cons_append, List.cons.injEq] at hsplit
          obtain ⟨rfl, hsplit⟩ := hsplit
          exact hdone _ _ _ hsplit d hd

theorem topoAux_complete {g : DependencyGraph} {subset : List String}
    (hacyc : DepAcyclic g subset) :
    ∀ (fuel : Nat) (remaining done : List String),
      remaining.length ≤ fuel →
      (done ++ remaining).Perm subset →
      ∃ order, topoAux g subset fuel remaining done = .ok order := by
  intro fuel
  induction fuel with
  | zero =>
    intro remaining done hlen _
    cases remaining with
    | nil => exact ⟨done.reverse, by simp [topoAux]⟩
    | cons r rs => simp at hlen
  | succ fuel ih =>
    intro remaining done hlen hperm
    cases remaining with
    | nil => exact ⟨done.reverse, by simp [topoAux]⟩
    | cons r rs =>
      cases hfr : findReady g subset done (r :: rs) with
      | some n =>
        have hmem := (findReady_some hfr).1
        have hlen' : ((r :: rs).erase n).length ≤ fuel := by
          have h1 := List.length_erase_add_one hmem
          simp only [List.length_cons] at h1 hlen
          omega
        have hperm' : ((n :: done) ++ (r :: rs).erase n).Perm subset :=
          List.perm_middle.symm.trans
            ((List.Perm.append_left _ (List.perm_cons_erase hmem).symm).trans hperm)
        obtain ⟨order, horder⟩ := ih _ _ hlen' hperm'
        refine ⟨order, ?_⟩
        rw [topoAux]
        simp only [hfr]
        exact horder
      | none =>
        exfalso
        have hsucc : ∀ m ∈ (r :: rs), ∃ d ∈ (r :: rs), DepEdge g subset m d := by
          intro m hm
          obtain ⟨d, hd, hdnot⟩ := findReady_none hfr m hm
          have hedge := mem_depsWithin.mp hd
          have hmsub : m ∈ subset :=
            hperm.mem_iff.mp (List.mem_append.mpr (Or.inr hm))
          have hdrem : d ∈ (r :: rs) := by
            have h2 : d ∈ done ++ (r :: rs) := hperm.mem_iff.mpr hedge.2
            rcases List.mem_append.mp h2 with h3 | h3
            · exact absurd h3 hdnot
            · exact h3
          exact ⟨d, hdrem, hedge.1, hmsub, hedge.2⟩
        obtain ⟨m, hcyc⟩ := exists_cycle_of_succ (List.cons_ne_nil r rs) hsucc
        exact hacyc m hcyc

theorem acyclic_of_respecting_order {g : DependencyGraph} {subset order : List String}
    (hperm : order.Perm subset)
    (hresp : ∀ pre x post, order = pre ++ x :: post → ∀ d ∈ depsWithin g subset x, d ∈ pre) :
    DepAcyclic g subset := by
  have key : ∀ a b, DepEdge g subset a b →
      List.indexOf b order < List.indexOf a order := by
    intro a b hab
    have haorder : a ∈ order := hperm.mem_iff.mpr hab.2.1
    have hidx : List.indexOf a order < order.length := List.indexOf_lt_length.mpr haorder
    have hsplit : order = order.take (List.indexOf a order)
        ++ a :: order.drop (List.indexOf a order + 1) := by
      conv_lhs => rw [← List.take_append_drop (List.indexOf a order) order]
      congr 1
      rw [List.drop_eq_getElem_cons hidx]
      congr 1
      exact List.getElem_indexOf hidx
    have hb : b ∈ depsWithin g subset a := mem_depsWithin.mpr ⟨hab.1, hab.2.2⟩
    exact indexOf_lt_of_mem_take (hresp _ _ _ hsplit b hb)
  intro n hcyc
  have mono : ∀ a b, Relation.TransGen (DepEdge g subset) a b →
      List.indexOf b order < List.indexOf a order := by
    intro a b h
    induction h with
    | single h => exact key _ _ h
    | tail _ hR ih => exact lt_trans (key _ _ hR) ih
  exact absurd (mono n n hcyc) (lt_irrefl _)

/-- Claim C2: for every dependency graph and every requested subset of
names, `get_execution_order` returns, when the edges recorded among the
subset are acyclic, a total order of the subset (a permutation of it) in
which every dependency precedes its dependent; when the subset induces a
cycle it returns a `CircularDependency` error (the scheduler is a total
function, so it neither loops forever nor silently truncates); an empty
subset yields an empty order. -/
theorem getExecutionOrder_correct (g : DependencyGraph) (subset : List String) :
    g.getExecutionOrder [] = .ok [] ∧
    (DepAcyclic g subset →
      ∃ order, g.getExecutionOrder subset = .ok order ∧ order.Perm subset ∧
        ∀ a b, DepEdge g subset a b →
          ∃ pre post, order = pre ++ a :: post ∧ b ∈ pre) ∧
    (¬ DepAcyclic g subset →
      ∃ stuck, g.getExecutionOrder subset = .error (.circularDependency stuck)) := by
  refine ⟨rfl, ?_, ?_⟩
  · intro hacyc
    obtain ⟨order, horder⟩ :=
      topoAux_complete hacyc subset.length subset [] (le_refl _) (by simp)
    have hperm : order.Perm subset := by
      have h2 := topoAux_perm _ _ _ _ horder
      simpa using h2
    have hresp := topoAux_respects _ _ _ _ horder
      (by intro pre x post hsplit d hd; simp at hsplit)
    refine ⟨order, horder, hperm, ?_⟩
    intro a b hab
    have haorder : a ∈ order := hperm.mem_iff.mpr hab.2.1
    obtain ⟨pre, post, hsplit⟩ := List.append_of_mem haorder
    exact ⟨pre, post, hsplit, hresp _ _ _ hsplit b (mem_depsWithin.mpr ⟨hab.1, hab.2.2⟩)⟩
  · intro hcyc
    cases h : g.getExecutionOrder subset with
    | error e =>
      cases e with
      | circularDependency stuck => exact ⟨stuck, rfl⟩
    | ok order =>
      exfalso
      apply hcyc
      have hperm : order.Perm subset := by
        have h2 := topoAux_perm _ _ _ _ h
        simpa using h2
      have hresp := topoAux_respects _ _ _ _ h
        (by intro pre x post hsplit d hd; simp at hsplit)
      exact acyclic_of_respecting_order hperm hresp

/-- Witness for C2: the one-edge graph `b depends on a` over the subset
`["a", "b"]` is acyclic and gets an order; the self-loop graph over
`["a"]` is cyclic and gets the `CircularDependency` error. -/
theorem getExecutionOrder_correct_witness :
    (∃ order, (DependencyGraph.mk [("b", "a")]).getExecutionOrder ["a", "b"] = .ok order ∧
       order.Perm ["a", "b"] ∧
       ∀ x y, DepEdge (DependencyGraph.mk [("b", "a")]) ["a", "b"] x y →
         ∃ pre post, order = pre ++ x :: post ∧ y ∈ pre) ∧
    (∃ stuck, (DependencyGraph.mk [("a", "a")]).getExecutionOrder ["a"]
        = .error (.circularDependency stuck)) := by
  have hAcyc : DepAcyclic (DependencyGraph.mk [("b", "a")]) ["a", "b"] := by
    intro n hn
    have key : ∀ x y,
        Relation.TransGen (DepEdge (DependencyGraph.mk [("b", "a")]) ["a", "b"]) x y →
        x = "b" ∧ y = "a" := by
      intro x y h
      induction h with
      | single h =>
        have h1 := h.1
        simp only [DependencyGraph.mk, List.mem_singleton, Prod.mk.injEq] at h1
        exact h1
      | tail _ hR ih =>
        exfalso
        have h1 := hR.1
        rw [ih.2] at h1
        simp only [DependencyGraph.mk, List.mem_singleton, Prod.mk.injEq] at h1
        exact absurd h1.1 (by decide)
    have h2 := key n n hn
    exact absurd (h2.1.symm.trans h2.2) (by decide)
  have hCyc : ¬ DepAcyclic (DependencyGraph.mk [("a", "a")]) ["a"] := by
    intro h
    exact h "a" (Relation.TransGen.single ⟨by simp, by simp, by simp⟩)
  exact ⟨(getExecutionOrder_correct (DependencyGraph.mk [("b", "a")]) ["a", "b"]).2.1 hAcyc,
         (getExecutionOrder_correct (DependencyGraph.mk [("a", "a")]) ["a"]).2.2 hCyc⟩

theorem validateSteps_ok_iff (l : List PipelineStep) :
    validateSteps l = .ok () ↔
      ∀ s ∈ l, s.timeoutSecs.getD 300 ≤ 600 ∧ s.tool ∈ knownTools := by
  induction l with
  | nil => simp [validateSteps]
  | cons s rest ih =>
    rw [validateSteps]
    by_cases ht : s.timeoutSecs.getD 300 > 600
    · simp only [if_pos ht]
      constructor
      · intro h; exact absurd h (by simp)
      · intro h
        exact absurd (h s (List.mem_cons_self s rest)).1 (by omega)
    · simp only [if_neg ht]
      by_cases htool : knownTools.contains s.tool
      · have htool' : s.tool ∈ knownTools := by simpa using htool
        simp only [htool, Bool.not_true, Bool.false_eq_true, if_false, ih]
        constructor
        · intro h t hmem
          rcases List.mem_cons.mp hmem with rfl | hmem
          · exact ⟨by omega, htool'⟩
          · exact h t hmem
        · intro h t hmem
          exact h t (List.mem_cons_of_mem _ hmem)
      · have htool' : s.tool ∉ knownTools := by simpa using htool
        have hcf : (knownTools.contains s.tool) = false := by
          simpa using htool
        simp only [hcf, Bool.not_false, if_true]
        constructor
        · intro h; exact absurd h (by simp)
        · intro h
          exact absurd (h s (List.mem_cons_self s rest)).2 htool'

theorem validateSteps_timeout_error :
    ∀ (pre : List PipelineStep) (s : PipelineStep) (post : List PipelineStep),
      (∀ t ∈ pre, t.timeoutSecs.getD 300 ≤ 600 ∧ t.tool ∈ knownTools) →
      s.timeoutSecs.getD 300 > 600 →
      validateSteps (pre ++ s :: post) = .error (.validation
        ("Step '" ++ s.name ++ "' timeout too long: maximum 10 minutes allowed")) := by
  intro pre
  induction pre with
  | nil =>
    intro s post _ hbad
    rw [List.nil_append, validateSteps, if_pos hbad]
  | cons t ts ih =>
    intro s post hok hbad
    have ht := hok t (List.mem_cons_self t ts)
    have hcf : knownTools.contains t.tool = true := by
      simpa using ht.2
    rw [List.cons_append, validateSteps, if_neg (by omega), hcf]
    simp only [Bool.not_true, Bool.false_eq_true, if_false]
    exact ih s post (fun u hu => hok u (List.mem_cons_of_mem _ hu)) hbad

theorem validateSteps_tool_error :
    ∀ (pre : List PipelineStep) (s : PipelineStep) (post : List PipelineStep),
      (∀ t ∈ pre, t.timeoutSecs.getD 300 ≤ 600 ∧ t.tool ∈ knownTools) →
      s.timeoutSecs.getD 300 ≤ 600 → s.tool ∉ knownTools →
      validateSteps (pre ++ s :: post) = .error (.validation
        ("Unknown tool '" ++ s.tool ++ "' in step '" ++ s.name ++ "'")) := by
  intro pre
  induction pre with
  | nil =>
    intro s post _ htime htool
    have hcf : knownTools.contains s.tool = false := by
      simpa using htool
    rw [List.nil_append, validateSteps, if_neg (by omega), hcf]
    simp
  | cons t ts ih =>
    intro s post hok htime htool
    have ht := hok t (List.mem_cons_self t ts)
    have hcf : knownTools.contains t.tool = true := by
      simpa using ht.2
    rw [List.cons_append, validateSteps, if_neg (by omega), hcf]
    simp only [Bool.not_true, Bool.false_eq_true, if_false]
    exact ih s post (fun u hu => hok u (List.mem_cons_of_mem _ hu)) htime htool

/-- Claim C1: pipeline validation before any step executes accepts a
submitted custom pipeline iff it has at most 50 steps, every step's
timeout (default 300 s) is at most 10 minutes, and every step's tool is in
the known-tool allowlist; a violation is rejected with a validation error
naming the violated constraint ("too complex" for the step count, the
offending step for a timeout, the offending step and tool for an unknown
tool), and on rejection zero steps execute. -/
theorem validatePipeline_correct (p : ToolPipeline)
    (exec : ToolPipeline → Except Error Unit × Nat) :
    (validatePipeline p = .ok () ↔
      (p.steps.length ≤ 50 ∧
        ∀ s ∈ p.steps, s.timeoutSecs.getD 300 ≤ 600 ∧ s.tool ∈ knownTools)) ∧
    (p.steps.length > 50 →
      validatePipeline p = .error (.validation "Pipeline too complex: maximum 50 steps allowed")) ∧
    (∀ pre s post, p.steps = pre ++ s :: post → p.steps.length ≤ 50 →
      (∀ t ∈ pre, t.timeoutSecs.getD 300 ≤ 600 ∧ t.tool ∈ knownTools) →
      s.timeoutSecs.getD 300 > 600 →
      validatePipeline p = .error (.validation
        ("Step '" ++ s.name ++ "' timeout too long: maximum 10 minutes allowed"))) ∧
    (∀ pre s post, p.steps = pre ++ s :: post → p.steps.length ≤ 50 →
      (∀ t ∈ pre, t.timeoutSecs.getD 300 ≤ 600 ∧ t.tool ∈ knownTools) →
      s.timeoutSecs.getD 300 ≤ 600 → s.tool ∉ knownTools →
      validatePipeline p = .error (.validation
        ("Unknown tool '" ++ s.tool ++ "' in step '" ++ s.name ++ "'"))) ∧
    (∀ e, validatePipeline p = .error e → handleCustomPipeline exec p = (.error e, 0)) := by
  refine ⟨?_, ?_, ?_, ?_, ?_⟩
  · rw [validatePipeline]
    by_cases hlen : p.steps.length > 50
    · simp only [if_pos hlen]
      constructor
      · intro h; exact absurd h (by simp)
      · intro h; omega
    · simp only [if_neg hlen, validateSteps_ok_iff]
      constructor
      · intro h; exact ⟨by omega, h⟩
      · intro h; exact h.2
  · intro hlen
    rw [validatePipeline, if_pos hlen]
  · intro pre s post hsplit hlen hok hbad
    rw [validatePipeline, if_neg (by omega), hsplit]
    exact validateSteps_timeout_error pre s post hok hbad
  · intro pre s post hsplit hlen hok htime htool
    rw [validatePipeline, if_neg (by omega), hsplit]
    exact validateSteps_tool_error pre s post hok htime htool
  · intro e he
    rw [handleCustomPipeline, he]

/-- Witness for C1: a one-step valid pipeline is accepted; a 51-step
pipeline, a pipeline with an 11-minute step and a pipeline with an unknown
tool are each rejected with the error naming the violated constraint, and
the handler executes zero steps on rejection. -/
theorem validatePipeline_correct_witness :
    validatePipeline
      { name := "ok", description := "", parallelExecution := false, failFast := true,
        steps := [{ name := "s1", tool := "observe", arguments := "", condition := none,
                    timeoutSecs := none }] } = .ok () ∧
    validatePipeline
      { name := "big", description := "", parallelExecution := false, failFast := true,
        steps := List.replicate 51
          { name := "s", tool := "observe", arguments := "", condition := none,
            timeoutSecs := none } }
      = .error (.validation "Pipeline too complex: maximum 50 steps allowed") ∧
    validatePipeline
      { name := "slowp", description := "", parallelExecution := false, failFast := true,
        steps := [{ name := "slow", tool := "observe", arguments := "", condition := none,
                    timeoutSecs := some 660 }] }
      = .error (.validation "Step 'slow' timeout too long: maximum 10 minutes allowed") ∧
    validatePipeline
      { name := "badtool", description := "", parallelExecution := false, failFast := true,
        steps := [{ name := "x", tool := "foo", arguments := "", condition := none,
                    timeoutSecs := none }] }
      = .error (.validation "Unknown tool 'foo' in step 'x'") ∧
    handleCustomPipeline (fun _ => (.ok (), 7))
      { name := "badtool", description := "", parallelExecution := false, failFast := true,
        steps := [{ name := "x", tool := "foo", arguments := "", condition := none,
                    timeoutSecs := none }] }
      = (.error (.validation "Unknown tool 'foo' in step 'x'"), 0) := by
  refine ⟨?_, ?_, ?_, ?_, ?_⟩
  · exact (validatePipeline_correct
      { name := "ok", description := "", parallelExecution := false, failFast := true,
        steps := [{ name := "s1", tool := "observe", arguments := "", condition := none,
                    timeoutSecs := none }] }
      (fun _ => (.ok (), 7))).1.mpr ⟨by decide, by decide⟩
  · exact (validatePipeline_correct
      { name := "big", description := "", parallelExecution := false, failFast := true,
        steps := List.replicate 51
          { name := "s", tool := "observe", arguments := "", condition := none,
            timeoutSecs := none } }
      (fun _ => (.ok (), 7))).2.1 (by decide)
  · exact (validatePipeline_correct
      { name := "slowp", description := "", parallelExecution := false, failFast := true,
        steps := [{ name := "slow", tool := "observe", arguments := "", condition := none,
                    timeoutSecs := some 660 }] }
      (fun _ => (.ok (), 7))).2.2.1 []
      { name := "slow", tool := "observe", arguments := "", condition := none,
        timeoutSecs := some 660 } [] rfl
      (by decide) (by decide) (by decide)
  · exact (validatePipeline_correct
      { name := "badtool", description := "", parallelExecution := false, failFast := true,
        steps := [{ name := "x", tool := "foo", arguments := "", condition := none,
                    timeoutSecs := none }] }
      (fun _ => (.ok (), 7))).2.2.2.1 []
      { name := "x", tool := "foo", arguments := "", condition := none,
        timeoutSecs := none } [] rfl
      (by decide) (by decide) (by decide) (by decide)
  · exact (validatePipeline_correct
      { name := "badtool", description := "", parallelExecution := false, failFast := true,
        steps := [{ name := "x", tool := "foo", arguments := "", condition := none,
                    timeoutSecs := none }] }
      (fun _ => (.ok (), 7))).2.2.2.2 _ rfl

theorem connectWithRetryLoop_allFail {ok : Nat → Bool} (h : ∀ k, ok k = false) :
    ∀ (fuel : Nat) (s : ClientState) (a : Nat),
      connectWithRetryLoop ok fuel s a
        = (.error (.connection "Failed to connect to BRP after 5 attempts"),
           { s with retryCount := s.retryCount + fuel }, a + fuel) := by
  intro fuel
  induction fuel with
  | zero => intro s a; simp [connectWithRetryLoop]
  | succ fuel ih =>
    intro s a
    rw [connectWithRetryLoop, if_neg (by simp [h]), ih]
    simp only [Prod.mk.injEq, ClientState.mk.injEq, true_and, and_true]
    omega

theorem connectWithRetryLoop_attempts_le (ok : Nat → Bool) :
    ∀ (fuel : Nat) (s : ClientState) (a : Nat),
      (connectWithRetryLoop ok fuel s a).2.2 ≤ a + fuel := by
  intro fuel
  induction fuel with
  | zero => intro s a; simp [connectWithRetryLoop]
  | succ fuel ih =>
    intro s a
    rw [connectWithRetryLoop]
    by_cases hok : ok a
    · simp only [if_pos hok]
      omega
    · simp only [if_neg hok]
      have := ih { s with retryCount := s.retryCount + 1 } (a + 1)
      omega

theorem connectWithRetryLoop_ok_resets (ok : Nat → Bool) :
    ∀ (fuel : Nat) (s : ClientState) (a : Nat) (s' : ClientState) (n : Nat),
      connectWithRetryLoop ok fuel s a = (.ok (), s', n) →
      s'.retryCount = 0 ∧ s'.connected = true ∧ s'.wsStream = true := by
  intro fuel
  induction fuel with
  | zero => intro s a s' n h; simp [connectWithRetryLoop] at h
  | succ fuel ih =>
    intro s a s' n h
    rw [connectWithRetryLoop] at h
    by_cases hok : ok a
    · rw [if_pos hok] at h
      simp only [Prod.mk.injEq] at h
      obtain ⟨-, rfl, -⟩ := h
      exact ⟨rfl, rfl, rfl⟩
    · rw [if_neg hok] at h
      exact ih _ _ _ _ h

/-- Claim C3: starting with the retry counter at 0, if every connection
attempt fails `connect_with_retry` performs exactly the configured maximum
of 5 attempts, returns a `Connection` error and makes no further attempts;
the number of attempts never exceeds 5; and a successful return leaves the
retry counter reset to 0. -/
theorem connectWithRetry_correct (ok : Nat → Bool) (s : ClientState)
    (h0 : s.retryCount = 0) :
    ((∀ k, ok k = false) →
      connectWithRetry ok s
        = (.error (.connection "Failed to connect to BRP after 5 attempts"),
           { s with retryCount := 5 }, 5)) ∧
    (connectWithRetry ok s).2.2 ≤ 5 ∧
    (∀ s' n, connectWithRetry ok s = (.ok (), s', n) → s'.retryCount = 0) := by
  refine ⟨?_, ?_, ?_⟩
  · intro hfail
    rw [connectWithRetry, maxRetries, h0]
    rw [connectWithRetryLoop_allFail hfail]
    rw [h0]
  · have h := connectWithRetryLoop_attempts_le ok (maxRetries - s.retryCount) s 0
    rw [connectWithRetry]
    rw [maxRetries] at h ⊢
    omega
  · intro s' n h
    exact (connectWithRetryLoop_ok_resets ok _ _ _ _ _ h).1

/-- Witness for C3: on the fresh client, five failures exhaust the retries
with the `Connection` error, a first-attempt success performs one attempt,
and the post-success retry counter is 0. -/
theorem connectWithRetry_correct_witness :
    connectWithRetry (fun _ => false)
        { wsStream := false, connected := false, retryCount := 0, batchRunning := false }
      = (.error (.connection "Failed to connect to BRP after 5 attempts"),
         { wsStream := false, connected := false, retryCount := 5, batchRunning := false }, 5) ∧
    (connectWithRetry (fun _ => true)
        { wsStream := false, connected := false, retryCount := 0, batchRunning := false }).2.2 ≤ 5 ∧
    ({ wsStream := true, connected := true, retryCount := 0, batchRunning := false }
        : ClientState).retryCount = 0 := by
  refine ⟨?_, ?_, ?_⟩
  · exact (connectWithRetry_correct (fun _ => false)
      { wsStream := false, connected := false, retryCount := 0, batchRunning := false }
      rfl).1 (fun _ => rfl)
  · exact (connectWithRetry_correct (fun _ => true)
      { wsStream := false, connected := false, retryCount := 0, batchRunning := false }
      rfl).2.1
  · exact (connectWithRetry_correct (fun _ => true)
      { wsStream := false, connected := false, retryCount := 0, batchRunning := false }
      rfl).2.2
      { wsStream := true, connected := true, retryCount := 0, batchRunning := false } 1 rfl

/-- Counterexample to C4 as stated: on a client whose batch-processor
task is running, `disconnect` (in `src/src/brp_client.rs`) leaves the
task running — it does not abort it. -/
theorem disconnect_batch_counterexample :
    ({ wsStream := true, connected := true, retryCount := 0, batchRunning := true }
      : ClientState).batchRunning = true ∧
    (disconnect
      { wsStream := true, connected := true, retryCount := 0, batchRunning := true
        }).batchRunning ≠ false := by
  decide

/-- Claim C4 (amended): `disconnect` closes the socket if one is open and
clears the connected flag, leaving the batch-processor task exactly as it
was (the separate `stop_batch_processing` aborts it); it is idempotent —
calling it on an already-disconnected client leaves the state unchanged,
and calling it twice has the same effect as calling it once. -/
theorem disconnect_correct (s : ClientState) :
    (disconnect s).wsStream = false ∧
    (disconnect s).connected = false ∧
    (disconnect s).batchRunning = s.batchRunning ∧
    (disconnect s).retryCount = s.retryCount ∧
    disconnect (disconnect s) = disconnect s ∧
    (s.wsStream = false → s.connected = false → disconnect s = s) ∧
    (stopBatchProcessing s).batchRunning = false := by
  refine ⟨rfl, rfl, rfl, rfl, rfl, ?_, rfl⟩
  intro h1 h2
  cases s
  simp only [disconnect] at *
  simp_all

/-- Witness for C4 (amended): disconnecting an already-disconnected
client leaves its state unchanged. -/
theorem disconnect_correct_witness :
    disconnect { wsStream := false, connected := false, retryCount := 1, batchRunning := false }
      = { wsStream := false, connected := false, retryCount := 1, batchRunning := false } :=
  (disconnect_correct
    { wsStream := false, connected := false, retryCount := 1, batchRunning := false
      }).2.2.2.2.2.1 rfl rfl

theorem refactoredConnectLoop_batch (ok : Nat → Bool) (newSock : Nat) :
    ∀ (fuel a : Nat) (s : RState),
      (refactoredConnectLoop ok newSock fuel a s).2.batchRunning = s.batchRunning := by
  intro fuel
  induction fuel with
  | zero => intro a s; rfl
  | succ fuel ih =>
    intro a s
    rw [refactoredConnectLoop]
    by_cases hok : ok a
    · rw [if_pos hok]
    · rw [if_neg hok]
      by_cases hf : fuel = 0
      · rw [if_pos hf]
      · rw [if_neg hf]
        exact ih _ _

theorem refactoredConnectLoop_ws (ok : Nat → Bool) (newSock : Nat) :
    ∀ (fuel a : Nat) (s : RState),
      (refactoredConnectLoop ok newSock fuel a s).2.wsStream = some newSock ∨
      (refactoredConnectLoop ok newSock fuel a s).2.wsStream = s.wsStream := by
  intro fuel
  induction fuel with
  | zero => intro a s; exact Or.inr rfl
  | succ fuel ih =>
    intro a s
    rw [refactoredConnectLoop]
    by_cases hok : ok a
    · rw [if_pos hok]; exact Or.inl rfl
    · rw [if_neg hok]
      by_cases hf : fuel = 0
      · rw [if_pos hf]; exact Or.inr rfl
      · rw [if_neg hf]
        exact ih _ _

theorem refactoredConnectLoop_ok (ok : Nat → Bool) (newSock : Nat) :
    ∀ (fuel a : Nat) (s : RState),
      (refactoredConnectLoop ok newSock fuel a s).1 = .ok () →
      (refactoredConnectLoop ok newSock fuel a s).2.wsStream = some newSock ∧
      (refactoredConnectLoop ok newSock fuel a s).2.retryCount = 0 ∧
      (refactoredConnectLoop ok newSock fuel a s).2.connected = true := by
  intro fuel
  induction fuel with
  | zero => intro a s h; simp [refactoredConnectLoop] at h
  | succ fuel ih =>
    intro a s h
    rw [refactoredConnectLoop] at h ⊢
    by_cases hok : ok a
    · rw [if_pos hok]
      exact ⟨rfl, rfl, rfl⟩
    · rw [if_neg hok] at h ⊢
      by_cases hf : fuel = 0
      · rw [if_pos hf] at h
        exact Except.noConfusion h
      · rw [if_neg hf] at h ⊢
        exact ih _ _ h

/-- Counterexample to C5 as stated: in `src/src/brp_client.rs`, a fresh
successful connect on an already-`Connected` client with a running batch
task leaves that batch task running — no orderly disconnect happens
first, so a batch task from the old connection persists across the
reconnect. -/
theorem connect_while_connected_counterexample :
    (connectPrimary true
      { wsStream := true, connected := true, retryCount := 0, batchRunning := true }).1
      = .ok () ∧
    ((connectPrimary true
      { wsStream := true, connected := true, retryCount := 0, batchRunning := true
        }).2).batchRunning ≠ false := by
  constructor
  · rfl
  · decide

/-- Claim C5 (amended): the primary client's `connect` performs no
disconnect-first (the batch task survives a reconnect, refuted input
above), while the refactored client's `connect` on an already-connected
client first runs `disconnect_internal`: after it, whatever the attempt
outcomes, no batch task survives, the old socket is gone (the final socket
is either the fresh one or none), and a successful connect installs the
fresh socket with the retry counter reset. -/
theorem refactoredConnect_disconnects_first (ok : Nat → Bool) (newSock : Nat)
    (maxR : Nat) (s : RState) (hconn : s.connected = true) :
    (refactoredConnect ok newSock maxR s).2.batchRunning = false ∧
    (∀ k, s.wsStream = some k → newSock ≠ k →
      (refactoredConnect ok newSock maxR s).2.wsStream ≠ some k) ∧
    ((refactoredConnect ok newSock maxR s).1 = .ok () →
      (refactoredConnect ok newSock maxR s).2.wsStream = some newSock ∧
      (refactoredConnect ok newSock maxR s).2.retryCount = 0) := by
  have hs1 : (if s.connected then disconnectInternal s else s)
      = { s with batchRunning := false, wsStream := none, connected := false } := by
    rw [if_pos (by simp [hconn]), disconnectInternal, if_neg (by simp [hconn])]
  rw [refactoredConnect, hs1]
  refine ⟨?_, ?_, ?_⟩
  · rw [refactoredConnectLoop_batch]
  · intro k hk hne
    rcases refactoredConnectLoop_ws ok newSock (maxR + 1) 0
        { s with batchRunning := false, wsStream := none, connected := false } with h | h
    · rw [h]
      simp [hne]
    · rw [h]
      simp
  · intro h
    have := refactoredConnectLoop_ok ok newSock (maxR + 1) 0
      { s with batchRunning := false, wsStream := none, connected := false } h
    exact ⟨this.1, this.2.1⟩

/-- Witness for C5 (amended): a concrete connected client with socket 7
and a running batch task, reconnected successfully to socket 8: the batch
task is gone, socket 7 is gone, socket 8 is installed with the retry
counter reset. -/
theorem refactoredConnect_disconnects_first_witness :
    (refactoredConnect (fun _ => true) 8 3
      { wsStream := some 7, connected := true, retryCount := 2, queueLen := 0,
        batchRunning := true }).2.batchRunning = false ∧
    (refactoredConnect (fun _ => true) 8 3
      { wsStream := some 7, connected := true, retryCount := 2, queueLen := 0,
        batchRunning := true }).2.wsStream ≠ some 7 ∧
    (refactoredConnect (fun _ => true) 8 3
      { wsStream := some 7, connected := true, retryCount := 2, queueLen := 0,
        batchRunning := true }).2.wsStream = some 8 ∧
    (refactoredConnect (fun _ => true) 8 3
      { wsStream := some 7, connected := true, retryCount := 2, queueLen := 0,
        batchRunning := true }).2.retryCount = 0 := by
  have h := refactoredConnect_disconnects_first (fun _ => true) 8 3
    { wsStream := some 7, connected := true, retryCount := 2, queueLen := 0,
      batchRunning := true } rfl
  exact ⟨h.1, h.2.1 7 rfl (by decide), (h.2.2 rfl).1, (h.2.2 rfl).2⟩

/-- Counterexample to C6 as stated: in `src/src/brp_client.rs` a caller
that enqueues a request through `send_batched_request` while the client is
disconnected is answered by the batch processor with the simulated
`Success` response — not with a `ConnectionError` or any error at all
(there is also no timeout on the wait: the caller blocks until the channel
resolves).  The queue does return to 0. -/
theorem sendBatchedRequest_disconnected_counterexample :
    (batchTick false true (fun _ => true)
      (sendBatchedRequestEnqueue [] .listComponents)).1
      = [(.listComponents, .ok (.success .success))] ∧
    (batchTick false true (fun _ => true)
      (sendBatchedRequestEnqueue [] .listComponents)).2.1 = [] := by
  exact ⟨rfl, rfl⟩

/-- Claim C6 (amended): `send_batched_request` pushes a `BatchedRequest`
carrying its own response channel at the back of the queue and blocks on
that channel with no timeout; a caller enqueuing while disconnected is not
given a `ConnectionError` — once the batch processor ticks, the request is
answered with the simulated `Success` response and the queue length
returns to 0.  Only the refactored client's `send_request` checks the
connection first: when disconnected it returns a `Connection` error
immediately and enqueues nothing. -/
theorem sendBatchedRequest_amended (q : List BrpRequest) (r : BrpRequest) (s : RState) :
    sendBatchedRequestEnqueue q r = q ++ [r] ∧
    ((batchTick false true (fun _ => true) (sendBatchedRequestEnqueue [] r)).1
        = [(r, .ok (.success .success))] ∧
      (batchTick false true (fun _ => true) (sendBatchedRequestEnqueue [] r)).2.1 = []) ∧
    (s.connected = false →
      refactoredSendRequestAdmit s = (.error (.connection "Not connected to BRP server"), s) ∧
      (refactoredSendRequestAdmit s).2.queueLen = s.queueLen) := by
  refine ⟨rfl, ⟨rfl, rfl⟩, ?_⟩
  intro h
  rw [refactoredSendRequestAdmit, h]
  exact ⟨rfl, rfl⟩

/-- Witness for C6 (amended): a concrete disconnected refactored client
with an empty queue is refused with the `Connection` error and its queue
stays empty. -/
theorem sendBatchedRequest_amended_witness :
    refactoredSendRequestAdmit
      { wsStream := none, connected := false, retryCount := 0, queueLen := 0,
        batchRunning := false }
      = (.error (.connection "Not connected to BRP server"),
         { wsStream := none, connected := false, retryCount := 0, queueLen := 0,
           batchRunning := false }) ∧
    (refactoredSendRequestAdmit
      { wsStream := none, connected := false, retryCount := 0, queueLen := 0,
        batchRunning := false }).2.queueLen = 0 :=
  (sendBatchedRequest_amended [] .listComponents
    { wsStream := none, connected := false, retryCount := 0, queueLen := 0,
      batchRunning := false }).2.2 rfl

/-- Counterexample to C7 as stated: the per-request wait of
`send_request_internal` is the hardcoded literal `Duration::from_secs(5)`;
it is not a configuration value — the configuration's
`resilience.request_timeout` (default 10 s) is ignored, as a config with
a 999 s budget still yields the 5 s wait. -/
theorem sendRequestTimeout_counterexample :
    sendRequestTimeoutSecs
      { bevyBrpHost := "localhost", bevyBrpPort := 15702, mcpPort := 3001,
        resilience := { requestTimeoutSecs := 999 } } = 5 ∧
    defaultConfig.resilience.requestTimeoutSecs = 10 ∧
    sendRequestTimeoutSecs defaultConfig ≠ defaultConfig.resilience.requestTimeoutSecs := by
  decide

/-- Claim C7 (amended): `send_request_internal` serializes and writes the
request exactly once (it never retries: at most one WebSocket write,
exactly one when a socket is present), waits for the next inbound message
under the fixed hardcoded 5-second budget, and surfaces a timeout and a
connection-closed event as two distinct `Connection` errors rather than
swallowing them. -/
theorem sendRequestInternal_writes (parse : String → Option BrpResponse)
    (ev : InboundEvent) (s : ClientState) (hws : s.wsStream = true) :
    (sendRequestInternal parse ev s).2.2 = 1 := by
  unfold sendRequestInternal
  rw [if_neg (by simp [hws])]
  cases ev with
  | timedOut => rfl
  | closeFrame => rfl
  | ended => rfl
  | wsFailure m => rfl
  | text t =>
    show (match parse t with
          | some resp => ((Except.ok resp : Except Error BrpResponse), s, 1)
          | none => (Except.error (Error.json "invalid response"), s, 1)).2.2 = 1
    cases parse t with
    | some resp => rfl
    | none => rfl

theorem sendRequestInternal_correct (parse : String → Option BrpResponse)
    (ev : InboundEvent) (s : ClientState) (cfg : Config) :
    sendRequestTimeoutSecs cfg = 5 ∧
    (sendRequestInternal parse ev s).2.2 ≤ 1 ∧
    (s.wsStream = true → (sendRequestInternal parse ev s).2.2 = 1) ∧
    (s.wsStream = true →
      (sendRequestInternal parse .timedOut s).1
          = .error (.connection "Request timeout") ∧
      (sendRequestInternal parse .closeFrame s).1
          = .error (.connection "Connection closed during request") ∧
      (sendRequestInternal parse .ended s).1
          = .error (.connection "Connection closed during request") ∧
      ((.connection "Request timeout" : Error)
          ≠ .connection "Connection closed during request")) := by
  refine ⟨rfl, ?_, fun hws => sendRequestInternal_writes parse ev s hws, ?_⟩
  · by_cases hws : s.wsStream = true
    · rw [sendRequestInternal_writes parse ev s hws]
    · have hws2 : s.wsStream = false := by simpa using hws
      unfold sendRequestInternal
      rw [if_pos (by simp [hws2])]
      exact Nat.zero_le 1
  · intro hws
    refine ⟨?_, ?_, ?_, by decide⟩ <;>
      (unfold sendRequestInternal; rw [if_neg (by simp [hws])])

/-- Witness for C7 (amended): on a concrete connected client, the timeout
and the connection-closed events surface as the two distinct `Connection`
errors and exactly one write is performed. -/
theorem sendRequestInternal_correct_witness :
    (sendRequestInternal (fun _ => none) .timedOut
      { wsStream := true, connected := true, retryCount := 0, batchRunning := false }).1
      = .error (.connection "Request timeout") ∧
    (sendRequestInternal (fun _ => none) .closeFrame
      { wsStream := true, connected := true, retryCount := 0, batchRunning := false }).1
      = .error (.connection "Connection closed during request") ∧
    (sendRequestInternal (fun _ => none) .timedOut
      { wsStream := true, connected := true, retryCount := 0, batchRunning := false }).2.2
      = 1 := by
  have h := sendRequestInternal_correct (fun _ => none) .timedOut
    { wsStream := true, connected := true, retryCount := 0, batchRunning := false }
    defaultConfig
  exact ⟨(h.2.2.2 rfl).1, (h.2.2.2 rfl).2.1, h.2.2.1 rfl⟩

theorem processBatch_map_fst (rm : Bool) (ss : Nat → Bool) :
    ∀ (l : List BrpRequest) (i : Nat),
      (processBatch rm ss l i).map Prod.fst = l := by
  intro l
  induction l with
  | nil => intro i; rfl
  | cons r rs ih =>
    intro i
    rw [processBatch]
    simp only [List.map_cons, ih]

theorem processBatch_length (rm : Bool) (ss : Nat → Bool) :
    ∀ (l : List BrpRequest) (i : Nat),
      (processBatch rm ss l i).length = l.length := by
  intro l
  induction l with
  | nil => intro i; rfl
  | cons r rs ih =>
    intro i
    rw [processBatch]
    simp only [List.length_cons, ih]

/-- Claim C8: each batch-processor tick drains at most the per-tick
maximum of 10 requests (`min(queue.len(), 10)`, exactly the front of the
queue), and the remaining requests stay in the queue for later ticks. -/
theorem batchTick_drain_bound (rm rl : Bool) (ss : Nat → Bool) (q : List BrpRequest) :
    (batchTick rm rl ss q).1.length ≤ 10 ∧
    (batchTick rm rl ss q).1.map Prod.fst = q.take (min q.length 10) ∧
    (batchTick rm rl ss q).2.1 = q.drop (min q.length 10) ∧
    (batchTick rm rl ss q).1.map Prod.fst ++ (batchTick rm rl ss q).2.1 = q := by
  have hlen : (q.take (min q.length 10)).length ≤ 10 := by
    rw [List.length_take]
    omega
  have hfst : (batchTick rm rl ss q).1.map Prod.fst = q.take (min q.length 10) := by
    rw [batchTick]
    by_cases hemp : (q.take (min q.length 10)).isEmpty
    · simp only [if_pos hemp, List.map_nil]
      rw [List.isEmpty_iff] at hemp
      exact hemp.symm
    · simp only [if_neg hemp]
      by_cases hrm : (rm && !rl)
      · simp only [if_pos hrm, List.map_map]
        have hid : (Prod.fst ∘ fun r : BrpRequest =>
            (r, (Except.error (Error.validation "BRP rate limit exceeded")
              : Except Error BrpResponse))) = id := rfl
        rw [hid, List.map_id]
      · simp only [if_neg hrm]
        exact processBatch_map_fst rm ss _ 0
  have hrest : (batchTick rm rl ss q).2.1 = q.drop (min q.length 10) := by
    rw [batchTick]
    by_cases hemp : (q.take (min q.length 10)).isEmpty
    · simp only [if_pos hemp]
    · simp only [if_neg hemp]
      by_cases hrm : (rm && !rl)
      · simp only [if_pos hrm]
      · simp only [if_neg hrm]
  refine ⟨?_, hfst, hrest, ?_⟩
  · have := congrArg List.length hfst
    rw [List.length_map] at this
    omega
  · rw [hfst, hrest]
    exact List.take_append_drop _ q

/-- Claim C9 (amended): on a tick where the admission oracle denies
admission (`check_brp_rate_limit` false with a resource manager present),
every drained request is failed immediately by sending
`Error::Validation("BRP rate limit exceeded")` on its response channel,
and none of the drained requests is put back into the queue — the queue
that remains is exactly the undrained tail. -/
theorem batchTick_admission_denied (ss : Nat → Bool) (q : List BrpRequest) :
    (batchTick true false ss q).1
      = (q.take (min q.length 10)).map
          (fun r => (r, .error (.validation "BRP rate limit exceeded"))) ∧
    (batchTick true false ss q).2.1 = q.drop (min q.length 10) := by
  rw [batchTick]
  by_cases hemp : (q.take (min q.length 10)).isEmpty
  · simp only [if_pos hemp]
    rw [List.isEmpty_iff] at hemp
    rw [hemp]
    simp
  · simp only [if_neg hemp]
    exact ⟨rfl, rfl⟩

/-- Counterexample to C9 as stated: the rate-limit failure delivered by
the batch processor is `Error::Validation("BRP rate limit exceeded")` —
the code's `Error` enum has no `RateLimited` kind at all, so the
admission denial is not surfaced as a `RateLimited` error but as a
`Validation` error. -/
theorem rateLimited_kind_counterexample :
    (batchTick true false (fun _ => true) [.listComponents]).1
      = [(.listComponents, .error (.validation "BRP rate limit exceeded"))] ∧
    specKindOf (.validation "BRP rate limit exceeded") = .validationError ∧
    specKindOf (.validation "BRP rate limit exceeded") ≠ .rateLimited := by
  refine ⟨rfl, rfl, ?_⟩
  decide

theorem processBatch_enumFrom (rm : Bool) (ss : Nat → Bool) :
    ∀ (l : List BrpRequest) (i0 : Nat) (p : Nat × BrpRequest × Except Error BrpResponse),
      p ∈ (processBatch rm ss l i0).enumFrom i0 →
      p.2.2 = if rm then
                (if ss p.1 then .ok (.success .success)
                 else .error (.validation "Request skipped due to adaptive sampling"))
              else .ok (.success .success) := by
  intro l
  induction l with
  | nil => intro i0 p hp; simp [processBatch] at hp
  | cons r rs ih =>
    intro i0 p hp
    have hcons : processBatch rm ss (r :: rs) i0
        = (r,
            if rm then
              (if ss i0 then .ok (.success .success)
               else .error (.validation "Request skipped due to adaptive sampling"))
            else .ok (.success .success)) :: processBatch rm ss rs (i0 + 1) := rfl
    rw [hcons] at hp
    simp only [List.enumFrom, List.mem_cons] at hp
    rcases hp with rfl | hp
    · rfl
    · exact ih (i0 + 1) p hp

/-- Claim C10: every request drained by the batch processor that passes
admission — the tick is admitted (no resource manager, or the rate-limit
check passes) and the request's own sampling check allows it (or no
resource manager is configured) — is answered on its channel with the
constant `BrpResponse::Success(BrpResult::Success)`, whatever the
request's method and parameters and regardless of the connection (the
tick has no access to the socket or the connected flag); nothing is
written to the WebSocket (the tick's third component, the messages
written, is empty). -/
theorem batchTick_admitted_constant (rm rl : Bool) (ss : Nat → Bool)
    (q : List BrpRequest) (hadm : rm = false ∨ rl = true) :
    (∀ p ∈ (batchTick rm rl ss q).1.enum, (rm = false ∨ ss p.1 = true) →
      p.2.2 = .ok (.success .success)) ∧
    (batchTick rm rl ss q).2.2 = [] := by
  have hden : (rm && !rl) = false := by
    rcases hadm with h | h <;> simp [h]
  have hbt : (batchTick rm rl ss q).1
      = processBatch rm ss (q.take (min q.length 10)) 0 := by
    rw [batchTick]
    by_cases hemp : (q.take (min q.length 10)).isEmpty
    · rw [if_pos hemp]
      rw [List.isEmpty_iff] at hemp
      rw [hemp]
      rfl
    · rw [if_neg hemp, hden]
      simp only [Bool.false_eq_true, if_false]
  constructor
  · intro p hp hpass
    rw [hbt] at hp
    have hp' : p ∈ (processBatch rm ss (q.take (min q.length 10)) 0).enumFrom 0 := hp
    have := processBatch_enumFrom rm ss _ 0 p hp'
    rcases hpass with h | h
    · rw [this, if_neg (by simp [h])]
    · rw [this]
      by_cases hrm : rm
      · rw [if_pos (by simp [hrm]), if_pos h]
      · rw [if_neg (by simp [hrm])]
  · rw [batchTick]
    by_cases hemp : (q.take (min q.length 10)).isEmpty
    · rw [if_pos hemp]
    · rw [if_neg hemp, hden]
      simp only [Bool.false_eq_true, if_false]

/-- Witness for C10: with no resource manager configured, a concrete
drained request is answered with the constant success response and
nothing is written to the WebSocket. -/
theorem batchTick_admitted_constant_witness :
    ((0, BrpRequest.listComponents,
        Except.ok (BrpResponse.success BrpResult.success)) :
      Nat × BrpRequest × Except Error BrpResponse).2.2
      = .ok (.success .success) ∧
    (batchTick false true (fun _ => true) [.listComponents]).2.2 = [] := by
  have h := batchTick_admitted_constant false true (fun _ => true)
    [.listComponents] (Or.inl rfl)
  refine ⟨h.1 _ ?_ (Or.inl rfl), h.2⟩
  exact List.mem_singleton.mpr rfl

example : disconnect { wsStream := true, connected := true, retryCount := 2, batchRunning := true }
    = { wsStream := false, connected := false, retryCount := 2, batchRunning := true } := by decide

example : connectWithRetry (fun _ => false)
    { wsStream := false, connected := false, retryCount := 0, batchRunning := false }
    = (.error (.connection "Failed to connect to BRP after 5 attempts"),
       { wsStream := false, connected := false, retryCount := 5, batchRunning := false }, 5) := rfl
